import Mathlib

/-!
# Verification of the airbus_ghalia raster-analysis pipeline

Shallow embedding of the numeric core of the repository:

* `SatImageReader.calculate_ndvi` (src/sat_image_reader.py): NDVI from a red
  and a near-infrared band, with the zero-denominator guard and the
  insufficient-band check that returns `None`.
* `GroundTruth.mask_evolution` (src/ground_truth.py): per-band coverage
  percentage (`pc_band`), the 7-column evolution matrix over the sorted
  `.tif` files of a folder, and the date extracted from each file name by
  the regex `\d{4}[-_]\d{2}[-_]\d{2}` with underscores replaced by dashes.
* `ClassesReader` (src/classes_reader.py): the fixed class dictionary, its
  reverse, the `Unknown Class (<id>)` fallback of `show_class`, and
  `detect_classes`.

Pixels are modelled as exact rationals; numpy arrays as lists of lists
(rows of pixels). A raster is the list of its bands; its declared band
count is the length of that list. Exceptions raised by `rasterio`
(`open` failing, `read` on a missing band) are modelled with `Option` /
`Except`: a `.tif` file is a name together with `Option` contents, `none`
meaning the file cannot be opened.
-/

/-- A numpy 2-D array of pixels: a list of rows of rational samples. -/
abbrev Grid : Type := List (List ℚ)

/-- A raster is the list of its bands; `image.count` is the list length. -/
abbrev Raster : Type := List Grid

/-- `src.read(i)` with 1-based band index `i`: fails (raises) unless
`1 ≤ i ≤ count`. -/
def readBand (bands : Raster) (i : Nat) : Option Grid :=
  if i = 0 then none else bands[i - 1]?

/-! ## Spectral Index Engine (`SatImageReader.calculate_ndvi`) -/

/-- One pixel of `np.true_divide(nir - red, nir + red)` followed by
`ndvi[denominator == 0] = 0`: exactly-zero denominators are forced to 0. -/
def ndviPixel (red nir : ℚ) : ℚ :=
  if nir + red = 0 then 0 else (nir - red) / (nir + red)

/-- Elementwise combination of two same-shaped grids. -/
def zipGrid (f : ℚ → ℚ → ℚ) (a b : Grid) : Grid :=
  List.zipWith (List.zipWith f) a b

/-- `SatImageReader.calculate_ndvi`: returns `None` when
`self.bandes < max(red_band_index, nir_band_index)` (and when a read
fails), otherwise the elementwise NDVI grid. -/
def calculate_ndvi (bands : Raster) (red_band_index nir_band_index : Nat) :
    Option Grid :=
  if bands.length < max red_band_index nir_band_index then none
  else
    match readBand bands red_band_index, readBand bands nir_band_index with
    | some red, some nir => some (zipGrid ndviPixel red nir)
    | _, _ => none

/-! ## Coverage Statistic (inline in `GroundTruth.mask_evolution`) -/

/-- `np.max` over the flattened band; numpy rejects an empty array, and the
branch that calls it is unreachable for one (an empty band has sum 0), so
the `[]` value is arbitrary. -/
def bandMax : List ℚ → ℚ
  | [] => 0
  | x :: xs => xs.foldl max x

/-- The body of the band loop of `mask_evolution`: 0 when the band sums to
0, otherwise the band is divided by its maximum (when that is nonzero),
summed, divided by `shape[0] * shape[1]` and scaled to a percentage. -/
def pc_band (band : Grid) : ℚ :=
  let flat := band.flatten
  if flat.sum = 0 then 0
  else
    let m := bandMax flat
    let normalized := if m ≠ 0 then flat.map (fun p => p / m) else flat
    normalized.sum / ((band.length : ℚ) * ((band.headD []).length : ℚ)) * 100

/-- The rows of a numpy 2-D array all have the row length of the first
row; lists of lists that violate this do not model a numpy array. -/
def Rect (g : Grid) : Prop :=
  ∀ row ∈ g, row.length = (g.headD []).length

instance (g : Grid) : Decidable (Rect g) := by
  unfold Rect; infer_instance

/-! ## Date extraction (regex `\d{4}[-_]\d{2}[-_]\d{2}` in `mask_evolution`) -/

/-- Try the fixed-length pattern `\d{4}[-_]\d{2}[-_]\d{2}` anchored at the
head of the character list; on success return the 10 matched characters. -/
def matchDateAt : List Char → Option (List Char)
  | y1 :: y2 :: y3 :: y4 :: s1 :: m1 :: m2 :: s2 :: d1 :: d2 :: _ =>
    if (y1.isDigit && y2.isDigit && y3.isDigit && y4.isDigit
        && (s1 == '-' || s1 == '_')
        && m1.isDigit && m2.isDigit
        && (s2 == '-' || s2 == '_')
        && d1.isDigit && d2.isDigit) then
      some [y1, y2, y3, y4, s1, m1, m2, s2, d1, d2]
    else none
  | _ => none

/-- `re.search`: try the pattern at each position from the left, returning
the leftmost match. -/
def searchDate : List Char → Option (List Char)
  | [] => none
  | c :: cs =>
    match matchDateAt (c :: cs) with
    | some m => some m
    | none => searchDate cs

/-- `match.group(0).replace("_", "-")` applied to the `re.search` result on
a file name. -/
def extractDate (s : String) : Option String :=
  (searchDate s.data).map
    (fun m => String.mk (m.map (fun c => if c = '_' then '-' else c)))

/-! ## Evolution Aggregator (`GroundTruth.mask_evolution` and `main`) -/

/-- A `.tif` file as the aggregator sees it: a base name plus the bands
`rasterio.open` would yield; `none` models a file that fails to open. -/
structure TifFile where
  name : String
  contents : Option Raster
deriving DecidableEq

/-- Python `f.endswith(".tif")`: the characters `.tif` are a suffix of the
file name. -/
def isTif (f : TifFile) : Bool :=
  (".tif").data.isSuffixOf f.name.data

/-- The ordered `.tif` file list: `sorted([... for f in os.listdir(...) if
f.endswith(".tif")])` (all paths share the folder prefix, so sorting the
joined paths orders them by base name; Python compares strings
codepoint-lexicographically, i.e. by their character lists). -/
def sortTifs (files : List TifFile) : List TifFile :=
  List.insertionSort (fun a b => a.name.data ≤ b.name.data)
    (files.filter isTif)

/-- Sequentially read the given 1-based band indices; the first failing
read aborts (`src.read(i)` raises on a missing band). -/
def readBands (bands : Raster) : List Nat → Option (List Grid)
  | [] => some []
  | i :: is =>
    match readBand bands i, readBands bands is with
    | some g, some gs => some (g :: gs)
    | _, _ => none

/-- The per-file body of the loop: open the file (an unopenable file
raises), read bands 1..7 (a missing band raises), and apply the coverage
statistic to each band, producing the file's 7-entry matrix row. -/
def processFile (f : TifFile) : Except String (List ℚ) :=
  match f.contents with
  | none => Except.error ("cannot open " ++ f.name)
  | some bands =>
    match readBands bands (List.range' 1 7) with
    | none => Except.error ("missing band in " ++ f.name)
    | some bs => Except.ok (bs.map pc_band)

/-- The file loop of `mask_evolution`: rows in file order, dates appended
only for files whose name matches the date pattern.  There is no
`try`/`except` inside the loop, so the first raising file aborts the whole
call (modelled by `Except.error`). -/
def runFiles : List TifFile → Except String (List (List ℚ) × List String)
  | [] => Except.ok ([], [])
  | f :: fs =>
    match processFile f with
    | Except.error e => Except.error e
    | Except.ok row =>
      match runFiles fs with
      | Except.error e => Except.error e
      | Except.ok (rows, dates) =>
        Except.ok (row :: rows,
          match extractDate f.name with
          | some d => d :: dates
          | none => dates)

/-- `GroundTruth.mask_evolution` over the files of one folder. -/
def mask_evolution (files : List TifFile) :
    Except String (List (List ℚ) × List String) :=
  runFiles (sortTifs files)

/-- A folder of the `main` batch: its path and its directory listing. -/
structure Folder where
  path : String
  files : List TifFile
deriving DecidableEq

/-- The folder loop of `main`: every folder is processed inside its own
`try`/`except`, so each folder yields an outcome and a failing folder
never stops the loop. -/
def main_loop : List Folder → List (Except String (List (List ℚ) × List String))
  | [] => []
  | fo :: fos => mask_evolution fo.files :: main_loop fos

/-! ## Class Registry and Class Detector (`ClassesReader`) -/

/-- `self.dict_classes` built in `ClassesReader.__init__`. -/
def dict_classes : List (String × Int) :=
  [("Impervious surfaces", 1), ("Agriculture", 2), ("Forest", 3),
   ("Wetlands", 4), ("Soil", 5), ("Water", 6), ("Snow", 7)]

/-- `self.reverse_dict_classes = {v: k for k, v in self.dict_classes.items()}`. -/
def reverse_dict_classes : List (Int × String) :=
  dict_classes.map (fun p => (p.2, p.1))

/-- `self.dict_classes[name]`, as a total lookup. -/
def id_of (name : String) : Option Int :=
  dict_classes.lookup name

/-- `self.reverse_dict_classes.get(classe, f"Unknown Class ({classe})")`
as used by `show_class` and `show_class_list`. -/
def name_of (classe : Int) : String :=
  match reverse_dict_classes.lookup classe with
  | some n => n
  | none => "Unknown Class (" ++ toString classe ++ ")"

/-- `np.any(data)`: some pixel of the grid is nonzero. -/
def gridAny (g : Grid) : Bool :=
  g.any (fun row => row.any (fun p => decide (p ≠ 0)))

/-- `ClassesReader.detect_classes`: the 1-based band indices `1..count`
whose band contains a nonzero pixel, in loop order. -/
def detect_classes (bands : Raster) : List Nat :=
  (List.range' 1 bands.length).filter
    (fun i => gridAny (bands.getD (i - 1) []))

instance : IsTotal TifFile (fun a b => a.name.data ≤ b.name.data) :=
  ⟨fun a b => le_total a.name.data b.name.data⟩

instance : IsTrans TifFile (fun a b => a.name.data ≤ b.name.data) :=
  ⟨fun _ _ _ hab hbc => le_trans hab hbc⟩

/-! ## Concrete sample data for witnesses and counterexamples -/

/-- A raster whose seven bands are all the 1×1 zero grid. -/
def sevenZeroBands : Raster := List.replicate 7 [[0]]

/-- A readable file with a date in its name. -/
def datedTif : TifFile := ⟨"b_2020-01-02.tif", some sevenZeroBands⟩

/-- A file that cannot be opened (`rasterio.open` raises). -/
def brokenTif : TifFile := ⟨"a.tif", none⟩

/-- A readable file whose name has no date pattern. -/
def sceneTif : TifFile := ⟨"scene.tif", some sevenZeroBands⟩

/-! ## Helper lemmas -/

theorem le_foldl_max (l : List ℚ) (a : ℚ) : a ≤ l.foldl max a := by
  induction l generalizing a with
  | nil => exact le_rfl
  | cons b bs ih => exact le_trans (le_max_left a b) (ih (max a b))

theorem mem_le_foldl_max (l : List ℚ) (a x : ℚ) (hx : x ∈ l) :
    x ≤ l.foldl max a := by
  induction l generalizing a with
  | nil => cases hx
  | cons b bs ih =>
    rcases List.mem_cons.mp hx with rfl | hmem
    · exact le_trans (le_max_right a x) (le_foldl_max bs (max a x))
    · exact ih (max a b) hmem

theorem le_bandMax (l : List ℚ) (x : ℚ) (hx : x ∈ l) : x ≤ bandMax l := by
  cases l with
  | nil => cases hx
  | cons y ys =>
    rcases List.mem_cons.mp hx with rfl | hmem
    · exact le_foldl_max ys x
    · exact mem_le_foldl_max ys y x hmem

theorem bandMax_pos (l : List ℚ) (x : ℚ) (hx : x ∈ l) (hpos : 0 < x) :
    0 < bandMax l :=
  lt_of_lt_of_le hpos (le_bandMax l x hx)

theorem rect_flatten_length (g : Grid) (hg : Rect g) :
    g.flatten.length = g.length * (g.headD []).length := by
  rw [List.length_flatten]
  have hmap : g.map List.length = List.replicate g.length (g.headD []).length := by
    rw [show (List.length : List ℚ → ℕ) = fun r => r.length from rfl]
    calc g.map (fun r => r.length)
        = g.map (Function.const _ (g.headD []).length) :=
          List.map_congr_left (fun r hr => hg r hr)
      _ = List.replicate g.length (g.headD []).length := List.map_const g _
  rw [hmap, List.sum_replicate, smul_eq_mul]

theorem flatten_ne_nil_of_sum_ne (g : Grid) (hs : g.flatten.sum ≠ 0) :
    g.flatten ≠ [] := by
  intro h
  exact hs (by rw [h]; rfl)

theorem pc_band_zero_branch (g : Grid) (h : g.flatten.sum = 0) :
    pc_band g = 0 := by
  unfold pc_band
  rw [if_pos h]

theorem pc_band_unfold (g : Grid) (hs : g.flatten.sum ≠ 0)
    (hm : bandMax g.flatten ≠ 0) :
    pc_band g = (g.flatten.map (fun p => p / bandMax g.flatten)).sum /
      ((g.length : ℚ) * ((g.headD []).length : ℚ)) * 100 := by
  simp only [pc_band]
  rw [if_neg hs, if_pos hm]

theorem bandMax_pos_of_nonneg (g : Grid) (hnn : ∀ x ∈ g.flatten, 0 ≤ x)
    (hs : g.flatten.sum ≠ 0) : 0 < bandMax g.flatten := by
  have hsum : 0 < g.flatten.sum :=
    lt_of_le_of_ne (List.sum_nonneg hnn) (Ne.symm hs)
  by_contra hmax
  push_neg at hmax
  have hall : ∀ x ∈ g.flatten, x = 0 := by
    intro x hx
    exact le_antisymm (le_trans (le_bandMax _ x hx) hmax) (hnn x hx)
  exact hs (List.sum_eq_zero hall)

theorem exists_pos_of_sum_ne (g : Grid) (hnn : ∀ x ∈ g.flatten, 0 ≤ x)
    (hs : g.flatten.sum ≠ 0) : ∃ x ∈ g.flatten, 0 < x := by
  by_contra h
  push_neg at h
  refine hs (List.sum_eq_zero (fun x hx => ?_))
  exact le_antisymm (h x hx) (hnn x hx)

theorem denom_pos_of_rect (g : Grid) (hrect : Rect g)
    (hne : g.flatten ≠ []) :
    0 < (g.length : ℚ) * ((g.headD []).length : ℚ) := by
  have hlen : 0 < g.flatten.length := List.length_pos.mpr hne
  rw [rect_flatten_length g hrect] at hlen
  have := Nat.cast_pos (α := ℚ) |>.mpr hlen
  rwa [Nat.cast_mul] at this

theorem pc_band_nonneg (g : Grid) (hnn : ∀ x ∈ g.flatten, 0 ≤ x) :
    0 ≤ pc_band g := by
  by_cases hs : g.flatten.sum = 0
  · rw [pc_band_zero_branch g hs]
  · have hm := bandMax_pos_of_nonneg g hnn hs
    rw [pc_band_unfold g hs (ne_of_gt hm)]
    have htot : 0 ≤ (g.flatten.map (fun p => p / bandMax g.flatten)).sum := by
      refine List.sum_nonneg (fun x hx => ?_)
      rcases List.mem_map.mp hx with ⟨p, hp, rfl⟩
      exact div_nonneg (hnn p hp) (le_of_lt hm)
    have hdenom : 0 ≤ (g.length : ℚ) * ((g.headD []).length : ℚ) :=
      mul_nonneg (Nat.cast_nonneg _) (Nat.cast_nonneg _)
    have := div_nonneg htot hdenom
    nlinarith

theorem pc_band_le_100 (g : Grid) (hrect : Rect g)
    (hnn : ∀ x ∈ g.flatten, 0 ≤ x) : pc_band g ≤ 100 := by
  by_cases hs : g.flatten.sum = 0
  · rw [pc_band_zero_branch g hs]; norm_num
  · have hm := bandMax_pos_of_nonneg g hnn hs
    rw [pc_band_unfold g hs (ne_of_gt hm)]
    have hle1 : ∀ x ∈ g.flatten.map (fun p => p / bandMax g.flatten),
        x ≤ (1 : ℚ) := by
      intro x hx
      rcases List.mem_map.mp hx with ⟨p, hp, rfl⟩
      exact (div_le_one hm).mpr (le_bandMax _ p hp)
    have htot : (g.flatten.map (fun p => p / bandMax g.flatten)).sum ≤
        ((g.flatten.length : ℚ)) := by
      have := List.sum_le_card_nsmul _ _ hle1
      rwa [List.length_map, nsmul_eq_mul, mul_one] at this
    have hcast : ((g.flatten.length : ℚ)) =
        (g.length : ℚ) * ((g.headD []).length : ℚ) := by
      rw [rect_flatten_length g hrect]
      push_cast
      ring
    have hdpos := denom_pos_of_rect g hrect (flatten_ne_nil_of_sum_ne g hs)
    have hdiv : (g.flatten.map (fun p => p / bandMax g.flatten)).sum /
        ((g.length : ℚ) * ((g.headD []).length : ℚ)) ≤ 1 := by
      rw [div_le_one hdpos]
      rw [hcast] at htot
      exact htot
    nlinarith

theorem pc_band_pos (g : Grid) (hrect : Rect g)
    (hnn : ∀ x ∈ g.flatten, 0 ≤ x) (hx : ∃ x ∈ g.flatten, 0 < x) :
    0 < pc_band g := by
  rcases hx with ⟨x, hxmem, hxpos⟩
  have hs : g.flatten.sum ≠ 0 := by
    have := List.single_le_sum hnn x hxmem
    intro h
    rw [h] at this
    exact absurd (lt_of_lt_of_le hxpos this) (lt_irrefl 0)
  have hm := bandMax_pos_of_nonneg g hnn hs
  rw [pc_band_unfold g hs (ne_of_gt hm)]
  have hnnmap : ∀ y ∈ g.flatten.map (fun p => p / bandMax g.flatten),
      0 ≤ y := by
    intro y hy
    rcases List.mem_map.mp hy with ⟨p, hp, rfl⟩
    exact div_nonneg (hnn p hp) (le_of_lt hm)
  have hmem : x / bandMax g.flatten ∈
      g.flatten.map (fun p => p / bandMax g.flatten) :=
    List.mem_map_of_mem _ hxmem
  have htot : 0 < (g.flatten.map (fun p => p / bandMax g.flatten)).sum :=
    lt_of_lt_of_le (div_pos hxpos hm) (List.single_le_sum hnnmap _ hmem)
  have hdpos := denom_pos_of_rect g hrect (flatten_ne_nil_of_sum_ne g hs)
  have := div_pos htot hdpos
  nlinarith

theorem mem_zipWith {α β γ : Type} (f : α → β → γ) :
    ∀ (l₁ : List α) (l₂ : List β) (x : γ), x ∈ List.zipWith f l₁ l₂ →
      ∃ a ∈ l₁, ∃ b ∈ l₂, x = f a b := by
  intro l₁
  induction l₁ with
  | nil => intro l₂ x hx; cases hx
  | cons a as ih =>
    intro l₂ x hx
    cases l₂ with
    | nil => cases hx
    | cons b bs =>
      rcases List.mem_cons.mp hx with rfl | hmem
      · exact ⟨a, List.mem_cons_self a as, b, List.mem_cons_self b bs, rfl⟩
      · rcases ih bs x hmem with ⟨a', ha', b', hb', rfl⟩
        exact ⟨a', List.mem_cons_of_mem a ha', b',
          List.mem_cons_of_mem b hb', rfl⟩

theorem ndviPixel_bounds (red nir : ℚ) (hred : 0 ≤ red) (hnir : 0 ≤ nir) :
    -1 ≤ ndviPixel red nir ∧ ndviPixel red nir ≤ 1 := by
  unfold ndviPixel
  split
  · norm_num
  · rename_i hne
    have hpos : 0 < nir + red := lt_of_le_of_ne (add_nonneg hnir hred) (Ne.symm hne)
    constructor
    · rw [le_div_iff₀ hpos]
      linarith
    · rw [div_le_one hpos]
      linarith

theorem readBand_mem (bands : Raster) (i : Nat) (g : Grid)
    (h : readBand bands i = some g) : g ∈ bands := by
  unfold readBand at h
  split at h
  · cases h
  · exact List.getElem?_mem h

theorem readBands_length (bands : Raster) :
    ∀ (l : List Nat) (gs : List Grid), readBands bands l = some gs →
      gs.length = l.length := by
  intro l
  induction l with
  | nil => intro gs h; cases h; rfl
  | cons i is ih =>
    intro gs h
    unfold readBands at h
    rcases h1 : readBand bands i with _ | g <;> rw [h1] at h
    · cases h
    · rcases h2 : readBands bands is with _ | gs' <;> rw [h2] at h
      · cases h
      · cases h
        simp [ih gs' h2]

theorem processFile_ok_length (f : TifFile) (row : List ℚ)
    (h : processFile f = Except.ok row) : row.length = 7 := by
  unfold processFile at h
  rcases hc : f.contents with _ | bands
  · simp only [hc] at h
    cases h
  · simp only [hc] at h
    rcases hr : readBands bands (List.range' 1 7) with _ | bs
    · simp only [hr] at h
      cases h
    · simp only [hr] at h
      cases h
      rw [List.length_map, readBands_length bands _ bs hr]
      rfl

/-- Everything a successful `runFiles` pass guarantees: one row per file,
in file order, the dates being exactly the parseable ones in the same
order. -/
theorem runFiles_ok (l : List TifFile) :
    ∀ (M : List (List ℚ)) (d : List String),
      runFiles l = Except.ok (M, d) →
      M.length = l.length ∧
      d = l.filterMap (fun f => extractDate f.name) ∧
      ∀ k, k < M.length →
        processFile (l.getD k ⟨"", none⟩) = Except.ok (M.getD k []) := by
  induction l with
  | nil =>
    intro M d h
    unfold runFiles at h
    cases h
    refine ⟨rfl, rfl, fun k hk => ?_⟩
    cases hk
  | cons f fs ih =>
    intro M d h
    unfold runFiles at h
    rcases hpf : processFile f with e | row
    · rw [hpf] at h; cases h
    · rw [hpf] at h
      rcases hrf : runFiles fs with e | p
      · rw [hrf] at h; cases h
      · rcases p with ⟨rows, dates⟩
        rw [hrf] at h
        cases h
        rcases ih rows dates hrf with ⟨hlen, hdates, hcorr⟩
        refine ⟨by simp [hlen], ?_, ?_⟩
        · rw [List.filterMap_cons]
          cases hd : extractDate f.name <;> simp [hd, hdates]
        · intro k hk
          cases k with
          | zero => simpa using hpf
          | succ k' =>
            simp only [List.getD_cons_succ]
            exact hcorr k' (by simpa using hk)

/-- A file the loop cannot open makes the whole `runFiles` pass fail:
there is no `try`/`except` at file granularity. -/
theorem runFiles_error_of_mem (l : List TifFile) :
    ∀ f ∈ l, f.contents = none → (runFiles l).isOk = false := by
  induction l with
  | nil => intro f hf; cases hf
  | cons g gs ih =>
    intro f hf hnone
    unfold runFiles
    rcases List.mem_cons.mp hf with rfl | hmem
    · have : processFile f = Except.error ("cannot open " ++ f.name) := by
        unfold processFile
        rw [hnone]
      rw [this]
      rfl
    · rcases hpg : processFile g with e | row
      · rfl
      · have := ih f hmem hnone
        rcases hrg : runFiles gs with e | p
        · rfl
        · rw [hrg] at this
          cases this

/-- The folder loop of `main` is a per-folder map: each folder's outcome
is independent of the others, so a failing folder never stops the batch. -/
theorem main_loop_eq_map (fos : List Folder) :
    main_loop fos = fos.map (fun fo => mask_evolution fo.files) := by
  induction fos with
  | nil => rfl
  | cons fo fos ih =>
    unfold main_loop
    rw [ih]
    rfl

/-- `sorted` sorts: the `.tif` files are in ascending lexical order of
their names (Mathlib's `String` order, which is the codepoint order
Python uses). -/
theorem sortTifs_sorted (files : List TifFile) :
    List.Sorted (fun a b : TifFile => a.name ≤ b.name) (sortTifs files) := by
  have h := List.sorted_insertionSort
    (fun a b : TifFile => a.name.data ≤ b.name.data)
    (files.filter isTif)
  exact h.imp (fun hab => String.le_iff_toList_le.mpr hab)

/-- Concrete run: one readable dated file yields one all-zero row and its
date. -/
theorem mask_evolution_datedTif :
    mask_evolution [datedTif] =
      Except.ok ([[0, 0, 0, 0, 0, 0, 0]], ["2020-01-02"]) := by
  have hs : sortTifs [datedTif] = [datedTif] := by decide
  have hd : extractDate ("b_2020-01-02.tif") = some ("2020-01-02") := by decide
  have hp : pc_band [[(0 : ℚ)]] = 0 := by norm_num [pc_band]
  unfold mask_evolution
  rw [hs]
  simp [runFiles, processFile, readBands, readBand, datedTif, sevenZeroBands,
    hd, hp, List.range', List.replicate]

/-- Concrete run: one readable file without a date yields one row and an
empty date list. -/
theorem mask_evolution_sceneTif :
    mask_evolution [sceneTif] = Except.ok ([[0, 0, 0, 0, 0, 0, 0]], []) := by
  have hs : sortTifs [sceneTif] = [sceneTif] := by decide
  have hd : extractDate ("scene.tif") = none := by decide
  have hp : pc_band [[(0 : ℚ)]] = 0 := by norm_num [pc_band]
  unfold mask_evolution
  rw [hs]
  simp [runFiles, processFile, readBands, readBand, sceneTif, sevenZeroBands,
    hd, hp, List.range', List.replicate]

/-! ## Claims -/

/-- C6: For every band grid whose pixel values sum to exactly zero, the
Coverage Statistic returns exactly 0, via the zero-sum branch taken before
any division. -/
theorem C6_zero_sum_coverage (band : Grid) (h : band.flatten.sum = 0) :
    pc_band band = 0 :=
  pc_band_zero_branch band h

theorem C6_zero_sum_coverage_witness :
    ([[(1 : ℚ), -1]] : Grid).flatten.sum = 0 ∧ pc_band [[(1 : ℚ), -1]] = 0 :=
  ⟨by norm_num, C6_zero_sum_coverage [[(1 : ℚ), -1]] (by norm_num)⟩

/-- C2 counterexample: on a band with negative pixel values the Coverage
Statistic leaves [0, 100] — the 1×2 band [-1, -2] yields 150. -/
theorem C2_counterexample :
    pc_band [[(-1 : ℚ), -2]] = 150 ∧ ¬ pc_band [[(-1 : ℚ), -2]] ≤ 100 := by
  have h : pc_band [[(-1 : ℚ), -2]] = 150 := by
    norm_num [pc_band, bandMax]
  exact ⟨h, by rw [h]; norm_num⟩

/-- C2 (amended): for every rectangular band grid whose pixel values are
all non-negative, the Coverage Statistic computed inside `mask_evolution`
lies in [0, 100]. -/
theorem C2_coverage_bounds (g : Grid) (hrect : Rect g)
    (hnn : ∀ row ∈ g, ∀ x ∈ row, 0 ≤ x) :
    0 ≤ pc_band g ∧ pc_band g ≤ 100 := by
  have hflat : ∀ x ∈ g.flatten, 0 ≤ x := by
    intro x hx
    rcases List.mem_flatten.mp hx with ⟨row, hrow, hxr⟩
    exact hnn row hrow x hxr
  exact ⟨pc_band_nonneg g hflat, pc_band_le_100 g hrect hflat⟩

theorem C2_coverage_bounds_witness :
    0 ≤ pc_band [[(1 : ℚ), 0], [0, 0]] ∧ pc_band [[(1 : ℚ), 0], [0, 0]] ≤ 100 :=
  C2_coverage_bounds [[(1 : ℚ), 0], [0, 0]] (by decide) (by decide)

/-- C10: on a rectangular, elementwise non-negative band grid the Coverage
Statistic is strictly positive as soon as one pixel is strictly positive,
and it is 0 exactly when every pixel is 0. -/
theorem C10_coverage_pos_iff (g : Grid) (hrect : Rect g)
    (hnn : ∀ row ∈ g, ∀ x ∈ row, 0 ≤ x) :
    ((∃ row ∈ g, ∃ x ∈ row, 0 < x) → 0 < pc_band g) ∧
    (pc_band g = 0 ↔ ∀ row ∈ g, ∀ x ∈ row, x = 0) := by
  have hflat : ∀ x ∈ g.flatten, 0 ≤ x := by
    intro x hx
    rcases List.mem_flatten.mp hx with ⟨row, hrow, hxr⟩
    exact hnn row hrow x hxr
  have hpos : (∃ row ∈ g, ∃ x ∈ row, 0 < x) → 0 < pc_band g := by
    rintro ⟨row, hrow, x, hxr, hxpos⟩
    exact pc_band_pos g hrect hflat
      ⟨x, List.mem_flatten.mpr ⟨row, hrow, hxr⟩, hxpos⟩
  refine ⟨hpos, ?_, ?_⟩
  · intro h0 row hrow x hxr
    by_contra hne
    have hxpos : 0 < x := lt_of_le_of_ne (hnn row hrow x hxr) (Ne.symm hne)
    have := hpos ⟨row, hrow, x, hxr, hxpos⟩
    rw [h0] at this
    exact lt_irrefl 0 this
  · intro hall
    refine pc_band_zero_branch g (List.sum_eq_zero (fun x hx => ?_))
    rcases List.mem_flatten.mp hx with ⟨row, hrow, hxr⟩
    exact hall row hrow x hxr

theorem C10_coverage_pos_iff_witness :
    ((∃ row ∈ ([[(1 : ℚ), 0]] : Grid), ∃ x ∈ row, 0 < x) →
      0 < pc_band [[(1 : ℚ), 0]]) ∧
    (pc_band [[(1 : ℚ), 0]] = 0 ↔
      ∀ row ∈ ([[(1 : ℚ), 0]] : Grid), ∀ x ∈ row, x = 0) :=
  C10_coverage_pos_iff [[(1 : ℚ), 0]] (by decide) (by decide)

/-- C3 counterexample: on a 3-band raster, requesting NDVI with the
default indices red=3, nir=4 makes `calculate_ndvi` hand the caller `none`
— a `None`-style result — instead of raising an `InsufficientBandsError`
(no such exception exists in the code). -/
theorem C3_counterexample :
    calculate_ndvi [[[(1 : ℚ)]], [[1]], [[1]]] 3 4 = none := rfl

/-- C3 (amended): if either band index exceeds the raster's declared band
count, `calculate_ndvi` returns `None` instead of a grid (it prints and
returns `None`; it does not raise). -/
theorem C3_returns_none (bands : Raster) (i j : Nat)
    (h : bands.length < max i j) : calculate_ndvi bands i j = none := by
  unfold calculate_ndvi
  rw [if_pos h]

theorem C3_returns_none_witness :
    ([[[(1 : ℚ)]], [[1]]] : Raster).length < max 3 4 ∧
    calculate_ndvi [[[(1 : ℚ)]], [[1]]] 3 4 = none :=
  ⟨by decide, C3_returns_none [[[(1 : ℚ)]], [[1]]] 3 4 (by decide)⟩

/-- C1 counterexample: with a negative pixel in the red band
(red = [[-1]], nir = [[2]]) the NDVI value is 3, outside [-1, 1], so the
unconditional range claim fails. -/
theorem C1_counterexample :
    calculate_ndvi [[[(-1 : ℚ)]], [[2]]] 1 2 = some [[3]] ∧
    ¬ ((3 : ℚ) ≤ 1) := by
  constructor
  · norm_num [calculate_ndvi, readBand, zipGrid, ndviPixel]
  · norm_num

/-- C1 (amended): whenever `calculate_ndvi` returns a grid, that grid is
the elementwise `(nir - red) / (nir + red)` of the two read bands with
exactly-zero denominators forced to 0 (so in this exact-arithmetic model
no value is undefined); and when the raster's pixel values are all
non-negative, every element of the result lies in [-1, 1]. -/
theorem C1_ndvi (bands : Raster) (i j : Nat) (g : Grid)
    (hnn : ∀ b ∈ bands, ∀ row ∈ b, ∀ x ∈ row, 0 ≤ x)
    (hg : calculate_ndvi bands i j = some g) :
    (∃ red nir, readBand bands i = some red ∧ readBand bands j = some nir ∧
      g = zipGrid ndviPixel red nir) ∧
    ∀ row ∈ g, ∀ x ∈ row, -1 ≤ x ∧ x ≤ 1 := by
  unfold calculate_ndvi at hg
  split at hg
  · cases hg
  · rcases hred : readBand bands i with _ | red <;> rw [hred] at hg
    · cases hg
    · rcases hnir : readBand bands j with _ | nir <;> rw [hnir] at hg
      · cases hg
      · cases hg
        refine ⟨⟨red, nir, rfl, rfl, rfl⟩, ?_⟩
        intro row hrow x hx
        rcases mem_zipWith _ red nir row hrow with ⟨rrow, hrr, nrow, hnr, rfl⟩
        rcases mem_zipWith ndviPixel rrow nrow x hx with ⟨a, ha, b, hb, rfl⟩
        exact ndviPixel_bounds a b
          (hnn red (readBand_mem bands i red hred) rrow hrr a ha)
          (hnn nir (readBand_mem bands j nir hnir) nrow hnr b hb)

theorem C1_ndvi_witness :
    calculate_ndvi [[[(1 : ℚ)]], [[1]], [[1]], [[2]]] 3 4 = some [[1 / 3]] ∧
    ((∃ red nir, readBand [[[(1 : ℚ)]], [[1]], [[1]], [[2]]] 3 = some red ∧
        readBand [[[(1 : ℚ)]], [[1]], [[1]], [[2]]] 4 = some nir ∧
        ([[(1 : ℚ) / 3]] : Grid) = zipGrid ndviPixel red nir) ∧
      ∀ row ∈ ([[(1 : ℚ) / 3]] : Grid), ∀ x ∈ row, -1 ≤ x ∧ x ≤ 1) := by
  have hg : calculate_ndvi [[[(1 : ℚ)]], [[1]], [[1]], [[2]]] 3 4 =
      some [[1 / 3]] := by
    norm_num [calculate_ndvi, readBand, zipGrid, ndviPixel]
  exact ⟨hg, C1_ndvi [[[(1 : ℚ)]], [[1]], [[1]], [[2]]] 3 4 [[1 / 3]]
    (by decide) hg⟩

/-- C8: the Class Registry round-trips (`id_of` then `name_of` recovers
each of the 7 defined class names), `name_of 99` yields the generated
label, and every identifier outside 1..7 yields
`"Unknown Class (<id>)"` — the lookup is total and never fails. -/
theorem C8_registry :
    (∀ p ∈ dict_classes, id_of p.1 = some p.2 ∧ name_of p.2 = p.1) ∧
    name_of 99 = "Unknown Class (99)" ∧
    ∀ classe : Int, classe < 1 ∨ 7 < classe →
      name_of classe = "Unknown Class (" ++ toString classe ++ ")" := by
  refine ⟨by decide, by decide, fun classe h => ?_⟩
  have e1 : (classe == (1 : Int)) = false := beq_eq_false_iff_ne.mpr (by omega)
  have e2 : (classe == (2 : Int)) = false := beq_eq_false_iff_ne.mpr (by omega)
  have e3 : (classe == (3 : Int)) = false := beq_eq_false_iff_ne.mpr (by omega)
  have e4 : (classe == (4 : Int)) = false := beq_eq_false_iff_ne.mpr (by omega)
  have e5 : (classe == (5 : Int)) = false := beq_eq_false_iff_ne.mpr (by omega)
  have e6 : (classe == (6 : Int)) = false := beq_eq_false_iff_ne.mpr (by omega)
  have e7 : (classe == (7 : Int)) = false := beq_eq_false_iff_ne.mpr (by omega)
  simp [name_of, reverse_dict_classes, dict_classes, List.lookup,
    e1, e2, e3, e4, e5, e6, e7]

theorem C8_registry_witness :
    ((-3 : Int) < 1 ∨ 7 < (-3 : Int)) ∧
    name_of (-3) = "Unknown Class (-3)" :=
  ⟨Or.inl (by norm_num), C8_registry.2.2 (-3) (Or.inl (by norm_num))⟩

/-- C9: `detect_classes` returns exactly the band indices in `1..count`
whose grid has a nonzero pixel, in ascending order; on
[zero band, nonzero band, zero band] it returns [2]. -/
theorem C9_detect :
    (∀ (bands : Raster) (i : Nat), i ∈ detect_classes bands ↔
      1 ≤ i ∧ i ≤ bands.length ∧
        ∃ row ∈ bands.getD (i - 1) [], ∃ x ∈ row, x ≠ 0) ∧
    (∀ bands : Raster, List.Sorted (· < ·) (detect_classes bands)) ∧
    detect_classes [[[0, 0]], [[0, (5 : ℚ)]], [[0, 0]]] = [2] := by
  refine ⟨fun bands i => ?_, fun bands => ?_, by decide⟩
  · unfold detect_classes
    rw [List.mem_filter, List.mem_range'_1]
    simp only [gridAny, List.any_eq_true, decide_eq_true_eq]
    constructor
    · rintro ⟨⟨h1, h2⟩, hx⟩
      exact ⟨h1, by omega, hx⟩
    · rintro ⟨h1, h2, hx⟩
      exact ⟨⟨h1, by omega⟩, hx⟩
  · exact (List.pairwise_lt_range' 1 bands.length 1).filter _

theorem C9_detect_witness :
    2 ∈ detect_classes [[[0, 0]], [[0, (5 : ℚ)]], [[0, 0]]] :=
  (C9_detect.1 [[[0, 0]], [[0, (5 : ℚ)]], [[0, 0]]] 2).mpr (by decide)

/-- C5: every Evolution Matrix `mask_evolution` actually returns has one
row per (necessarily successfully processed) `.tif` file, each row of
length 7, rows in ascending lexical order of the sorted file names, row
`k` being the processed row of file `k`. -/
theorem C5_matrix_shape (files : List TifFile) (M : List (List ℚ))
    (d : List String) (h : mask_evolution files = Except.ok (M, d)) :
    M.length = (sortTifs files).length ∧
    (∀ row ∈ M, row.length = 7) ∧
    List.Sorted (fun a b : TifFile => a.name ≤ b.name) (sortTifs files) ∧
    ∀ k, k < M.length →
      processFile ((sortTifs files).getD k ⟨"", none⟩) =
        Except.ok (M.getD k []) := by
  unfold mask_evolution at h
  rcases runFiles_ok (sortTifs files) M d h with ⟨hlen, _, hcorr⟩
  refine ⟨hlen, ?_, sortTifs_sorted files, hcorr⟩
  intro row hrow
  rcases List.mem_iff_getElem.mp hrow with ⟨k, hk, rfl⟩
  have hpk := hcorr k hk
  rw [List.getD_eq_getElem M [] hk] at hpk
  exact processFile_ok_length _ _ hpk

theorem C5_matrix_shape_witness :
    ([[(0 : ℚ), 0, 0, 0, 0, 0, 0]] : List (List ℚ)).length =
      (sortTifs [datedTif]).length ∧
    (∀ row ∈ ([[(0 : ℚ), 0, 0, 0, 0, 0, 0]] : List (List ℚ)),
      row.length = 7) ∧
    List.Sorted (fun a b : TifFile => a.name ≤ b.name) (sortTifs [datedTif]) ∧
    ∀ k, k < ([[(0 : ℚ), 0, 0, 0, 0, 0, 0]] : List (List ℚ)).length →
      processFile ((sortTifs [datedTif]).getD k ⟨"", none⟩) =
        Except.ok (([[(0 : ℚ), 0, 0, 0, 0, 0, 0]] : List (List ℚ)).getD k []) :=
  C5_matrix_shape [datedTif] [[0, 0, 0, 0, 0, 0, 0]] ["2020-01-02"]
    mask_evolution_datedTif

/-- C7: the Date Label comes from matching 4 digits, a `-`/`_` separator,
2 digits, a separator, 2 digits, with underscores replaced by dashes;
`"scene_2020-05-12_v1.tif"` yields `"2020-05-12"`, `"scene.tif"` yields
none; the dates of a successful run are exactly the parseable names in
file order, while the matrix still has one row per file (a dateless file
keeps its row but contributes no date). -/
theorem C7_dates :
    extractDate ("scene_2020-05-12_v1.tif") = some ("2020-05-12") ∧
    extractDate ("scene.tif") = none ∧
    (∀ (files : List TifFile) (M : List (List ℚ)) (d : List String),
      mask_evolution files = Except.ok (M, d) →
      d = (sortTifs files).filterMap (fun f => extractDate f.name) ∧
      M.length = (sortTifs files).length) ∧
    mask_evolution [sceneTif] = Except.ok ([[0, 0, 0, 0, 0, 0, 0]], []) := by
  refine ⟨by decide, by decide, fun files M d h => ?_, mask_evolution_sceneTif⟩
  rcases runFiles_ok (sortTifs files) M d h with ⟨hlen, hdates, _⟩
  exact ⟨hdates, hlen⟩

theorem C7_dates_witness :
    ([] : List String) =
      (sortTifs [sceneTif]).filterMap (fun f => extractDate f.name) ∧
    ([[(0 : ℚ), 0, 0, 0, 0, 0, 0]] : List (List ℚ)).length =
      (sortTifs [sceneTif]).length :=
  C7_dates.2.2.1 [sceneTif] [[0, 0, 0, 0, 0, 0, 0]] [] mask_evolution_sceneTif

/-- C4 counterexample: a single unopenable file (`a.tif`) makes the whole
`mask_evolution` call fail, although the remaining file processes fine on
its own — per-file failures are NOT caught at file granularity. -/
theorem C4_counterexample :
    mask_evolution [datedTif, brokenTif] =
      Except.error ("cannot open a.tif") ∧
    mask_evolution [datedTif] =
      Except.ok ([[0, 0, 0, 0, 0, 0, 0]], ["2020-01-02"]) := by
  refine ⟨?_, mask_evolution_datedTif⟩
  have hs : sortTifs [datedTif, brokenTif] = [brokenTif, datedTif] := by decide
  unfold mask_evolution
  rw [hs]
  rfl

/-- C4 (amended): an unopenable file aborts the whole folder's
`mask_evolution` call (no row is produced for any file); failure isolation
exists only one level up, where `main` wraps each folder in its own
`try`/`except`, so the folder loop is a per-folder map and a failing
folder never stops the remaining folders. -/
theorem C4_batch_abort :
    (∀ (files : List TifFile) (f : TifFile), f ∈ sortTifs files →
      f.contents = none → (mask_evolution files).isOk = false) ∧
    ∀ fos : List Folder,
      main_loop fos = fos.map (fun fo => mask_evolution fo.files) :=
  ⟨fun files f hmem hnone =>
    runFiles_error_of_mem (sortTifs files) f hmem hnone,
   main_loop_eq_map⟩

theorem C4_batch_abort_witness :
    (mask_evolution [datedTif, brokenTif]).isOk = false ∧
    main_loop [] = [] :=
  ⟨C4_batch_abort.1 [datedTif, brokenTif] brokenTif (by decide) rfl,
   C4_batch_abort.2 []⟩
